import Mathlib

/-!
# shadowsocks-libev `src/utils.h`: logging macros and `ss_free`

A shallow embedding of the macros of `utils.h` (non-Android builds):

* `LIB_ONLY` build: `USE_LOGFILE`, `CLOSE_LOGFILE`, `LOGI`, `LOGE` writing to the
  global `FILE *logfile`;
* default build: `USE_TTY`, `USE_SYSLOG`, `LOGI`, `LOGE` writing to syslog or to
  standard error, driven by the globals `use_tty` and `use_syslog`;
* `ss_free`.

The macros are statements over global variables and the C library.  Each macro is a
function on an explicit state: the globals it reads and writes together with the part
of the outside world its library calls act on.  The C library calls the macros make
(`fopen`, `fclose`, `fprintf`, `fflush`, `strftime`, `isatty`, `openlog`, `syslog`,
`free`) are modelled after ISO C / POSIX; where C leaves the behaviour undefined the
model returns a `Fault`.
-/

namespace Utils

/-- Bytes of a C string, of a stream or of a file. -/
abbrev Bytes := List Char

/-- Ways in which a library call made by a macro has no defined result. -/
inductive Fault where
  /-- A format string with a malformed directive, or a directive whose argument is
  missing or of the wrong type. -/
  | badFormat
  /-- The text produced by `strftime` does not fit the buffer: the buffer content is
  indeterminate. -/
  | timeOverflow
  /-- A stream operation on a `FILE *` that was already closed. -/
  | closedStream
  /-- A stream operation on a value that is no `FILE *` handed out by `fopen`. -/
  | badStream
  /-- The pointer given to `free` is not the address of a live block. -/
  | badFree
  deriving DecidableEq, Repr

/-! ## `printf`-family formatting -/

/-- One variadic argument. -/
inductive Arg where
  | int (v : Int)
  | str (s : Bytes)
  | ptr (a : Nat)
  deriving DecidableEq, Repr

/-- Conversion specifier characters (ISO C, POSIX and the glibc `%m`), and `%` itself. -/
def isConversion (c : Char) : Bool :=
  c ∈ "diouxXfFeEgGaAcspnmCS%".toList

/-- Characters that may stand between `%` and the conversion specifier: flags, field
width, precision and length modifiers. -/
def isModifier (c : Char) : Bool :=
  c ∈ "-+ #0123456789.*hlLjzt".toList

/-- The conversions of a C library: `conv mods c args` is the text one directive
`%<mods><c>` produces together with the arguments left after it took its own, or a
fault when the directive is invalid or its argument is missing or ill-typed.  The
only conversion the macros themselves rely on is the plain `%s`, which the C standard
fixes: it writes the characters of its string argument. -/
structure PrintfImpl where
  conv : List Char → Char → List Arg → Except Fault (Bytes × List Arg)
  conv_s : ∀ (s : Bytes) (rest : List Arg), conv [] 's' (Arg.str s :: rest) = .ok (s, rest)

/-- The scanner of a format string.  The first argument is `none` while ordinary
characters are copied and `some mods` inside a directive whose modifiers read so far
are `mods`.  Returns the text produced and the arguments not consumed. -/
def vformat (P : PrintfImpl) :
    Option (List Char) → List Char → List Arg → Except Fault (Bytes × List Arg)
  | none, [], args => .ok ([], args)
  | none, c :: fmt, args =>
    if c = '%' then vformat P (some []) fmt args
    else
      match vformat P none fmt args with
      | .ok (out, rest) => .ok (c :: out, rest)
      | .error e => .error e
  | some _, [], _ => .error .badFormat
  | some mods, c :: fmt, args =>
    if isConversion c then
      match P.conv mods c args with
      | .ok (txt, args1) =>
        match vformat P none fmt args1 with
        | .ok (out, rest) => .ok (txt ++ out, rest)
        | .error e => .error e
      | .error e => .error e
    else if isModifier c then vformat P (some (mods ++ [c])) fmt args
    else .error .badFormat

/-- Formatting of `fmt` against `args`: the text and the arguments left over. -/
def format (P : PrintfImpl) (fmt : List Char) (args : List Arg) :
    Except Fault (Bytes × List Arg) :=
  vformat P none fmt args

/-- The text `fprintf`/`syslog` produce for `fmt` and `args`; arguments in excess of
the directives are ignored. -/
def formatted (P : PrintfImpl) (fmt : List Char) (args : List Arg) : Except Fault Bytes :=
  match format P fmt args with
  | .ok (out, _) => .ok out
  | .error e => .error e

/-- Decimal text of an integer. -/
def decimalInt (v : Int) : Bytes :=
  if v < 0 then '-' :: Nat.toDigits 10 v.natAbs else Nat.toDigits 10 v.toNat

/-- The directives of a small concrete C library: `%%`, `%s`, `%d`, `%i`, `%u` and
`%c`, without modifiers.  Used to evaluate the macros on concrete calls. -/
def basicConv : List Char → Char → List Arg → Except Fault (Bytes × List Arg)
  | [], '%', args => .ok (['%'], args)
  | [], 's', Arg.str s :: rest => .ok (s, rest)
  | [], 'd', Arg.int v :: rest => .ok (decimalInt v, rest)
  | [], 'i', Arg.int v :: rest => .ok (decimalInt v, rest)
  | [], 'u', Arg.int v :: rest =>
    if 0 ≤ v then .ok (Nat.toDigits 10 v.toNat, rest) else .error .badFormat
  | [], 'c', Arg.int v :: rest =>
    if 0 ≤ v ∧ v < 256 then .ok ([Char.ofNat v.toNat], rest) else .error .badFormat
  | _, _, _ => .error .badFormat

/-- A concrete C library for evaluation. -/
def basicPrintf : PrintfImpl where
  conv := basicConv
  conv_s := by intro s rest; rfl

/-! ## `strftime` -/

/-- Broken-down time, the fields of `struct tm` that the formats below read. -/
structure Tm where
  tm_sec : Nat
  tm_min : Nat
  tm_hour : Nat
  tm_mday : Nat
  /-- Months since January. -/
  tm_mon : Nat
  /-- Years since 1900. -/
  tm_year : Int
  deriving DecidableEq, Repr

/-- A number printed in a two-digit field with a leading zero. -/
def pad2 (n : Nat) : Bytes :=
  if n < 100 then [Nat.digitChar (n / 10), Nat.digitChar (n % 10)] else Nat.toDigits 10 n

/-- The conversion `%Y`: the year as a decimal number. -/
def conv_Y (tm : Tm) : Bytes := decimalInt (tm.tm_year + 1900)

/-- One `strftime` conversion specifier.  `%F` is `%Y-%m-%d` and `%T` is `%H:%M:%S`
(ISO C 7.27.3.5). -/
def strftimeConv (c : Char) (tm : Tm) : Option Bytes :=
  if c = 'Y' then some (conv_Y tm)
  else if c = 'm' then some (pad2 (tm.tm_mon + 1))
  else if c = 'd' then some (pad2 tm.tm_mday)
  else if c = 'H' then some (pad2 tm.tm_hour)
  else if c = 'M' then some (pad2 tm.tm_min)
  else if c = 'S' then some (pad2 tm.tm_sec)
  else if c = 'F' then
    some (conv_Y tm ++ ['-'] ++ pad2 (tm.tm_mon + 1) ++ ['-'] ++ pad2 tm.tm_mday)
  else if c = 'T' then
    some (pad2 tm.tm_hour ++ [':'] ++ pad2 tm.tm_min ++ [':'] ++ pad2 tm.tm_sec)
  else if c = '%' then some ['%']
  else none

/-- The text a `strftime` format stands for, without regard to the buffer size. -/
def strftimeText : List Char → Tm → Except Fault Bytes
  | [], _ => .ok []
  | c :: fmt, tm =>
    if c = '%' then
      match fmt with
      | [] => .error .badFormat
      | d :: fmt1 =>
        match strftimeConv d tm with
        | none => .error .badFormat
        | some txt =>
          match strftimeText fmt1 tm with
          | .ok out => .ok (txt ++ out)
          | .error e => .error e
    else
      match strftimeText fmt tm with
      | .ok out => .ok (c :: out)
      | .error e => .error e

/-- The call `strftime(buf, max, fmt, tm)`: the string left in `buf`.  When the text
and its terminating NUL exceed `max` bytes, `strftime` returns 0 and the content of
`buf` is indeterminate. -/
def strftime (max : Nat) (fmt : List Char) (tm : Tm) : Except Fault Bytes :=
  match strftimeText fmt tm with
  | .ok out => if out.length + 1 ≤ max then .ok out else .error .timeOverflow
  | .error e => .error e

/-! ## Log calls and the lines the specification describes -/

/-- The two logging macros. -/
inductive Severity where
  | info
  | error
  deriving DecidableEq, Repr

/-- One call `LOGI(fmt, args...)` or `LOGE(fmt, args...)` made at local time `now`. -/
structure Call where
  sev : Severity
  now : Tm
  fmt : List Char
  args : List Arg
  deriving DecidableEq, Repr

/-- The line of the specification's File backend and uncoloured terminal form:
`" <timestamp> INFO: <message>\n"` or `" <timestamp> ERROR: <message>\n"`. -/
def specLine (sev : Severity) (ts m : Bytes) : Bytes :=
  match sev with
  | .info => " ".toList ++ ts ++ " INFO: ".toList ++ m ++ "\n".toList
  | .error => " ".toList ++ ts ++ " ERROR: ".toList ++ m ++ "\n".toList

/-- The coloured terminal line: the colour sequence (green `ESC[01;32m` for `LOGI`,
magenta `ESC[01;35m` for `LOGE`), the prefix `" <timestamp> INFO: "` or
`" <timestamp> ERROR: "`, the reset sequence `ESC[0m`, the message and a newline. -/
def colouredLine (sev : Severity) (ts m : Bytes) : Bytes :=
  match sev with
  | .info =>
    "\x1b[01;32m".toList ++ " ".toList ++ ts ++ " INFO: ".toList ++ "\x1b[0m".toList ++ m ++
      "\n".toList
  | .error =>
    "\x1b[01;35m".toList ++ " ".toList ++ ts ++ " ERROR: ".toList ++ "\x1b[0m".toList ++ m ++
      "\n".toList

/-- Following the words of the specification, "ANSI foreground-color wrapping around
the INFO:/ERROR: label": the uncoloured line with the colour sequence directly before
the label and the reset sequence directly after it. -/
def labelWrappedLine (sev : Severity) (ts m : Bytes) : Bytes :=
  match sev with
  | .info =>
    " ".toList ++ ts ++ " ".toList ++ "\x1b[01;32m".toList ++ "INFO:".toList ++
      "\x1b[0m".toList ++ " ".toList ++ m ++ "\n".toList
  | .error =>
    " ".toList ++ ts ++ " ".toList ++ "\x1b[01;35m".toList ++ "ERROR:".toList ++
      "\x1b[0m".toList ++ " ".toList ++ m ++ "\n".toList

/-- Whether `ts` has the shape of `pat`, in which `d` stands for any decimal digit and
every other character for itself. -/
def matchesPattern : List Char → Bytes → Bool
  | [], [] => true
  | p :: ps, c :: cs => (if p = 'd' then c.isDigit else c == p) && matchesPattern ps cs
  | _, _ => false

/-- The fixed pattern `YYYY-MM-DD HH:MM:SS` of the specification: 19 characters. -/
def isTimestamp (ts : Bytes) : Bool :=
  matchesPattern "dddd-dd-dd dd:dd:dd".toList ts

/-- Characters of a timestamp: digits, the separators of the format, and the sign of
a negative year. -/
def timeChar (c : Char) : Prop :=
  c.isDigit = true ∨ c = '-' ∨ c = ':' ∨ c = ' '

/-- The fields of a broken-down time are in the ranges `localtime` produces. -/
def Tm.inRange (tm : Tm) : Prop :=
  tm.tm_sec ≤ 60 ∧ tm.tm_min ≤ 59 ∧ tm.tm_hour ≤ 23 ∧ 1 ≤ tm.tm_mday ∧ tm.tm_mday ≤ 31 ∧
    tm.tm_mon ≤ 11

/-- The calendar year of a broken-down time has four digits. -/
def Tm.fourDigitYear (tm : Tm) : Prop :=
  1000 ≤ tm.tm_year + 1900 ∧ tm.tm_year + 1900 ≤ 9999

/-! ## Files and streams -/

/-- An object of type `FILE`: the file it is open on, its file position, the bytes
written to it and not yet flushed, and whether it was closed. -/
structure Stream where
  path : String
  pos : Nat
  buf : Bytes
  isOpen : Bool
  deriving DecidableEq, Repr

/-- The file system and the streams of the process.  `files` maps a path to the
visible content of the file (the first entry for a path counts); `denied` lists the
paths on which `fopen` fails; a `FILE *` is an index into `streams`. -/
structure World where
  files : List (String × Bytes)
  denied : List String
  streams : List Stream
  deriving DecidableEq, Repr

/-- The visible content of the file at `path`, if the file exists. -/
def World.content (w : World) (path : String) : Option Bytes :=
  w.files.lookup path

/-- The stream behind a `FILE *`. -/
def World.stream (w : World) (h : Nat) : Option Stream :=
  w.streams[h]?

/-- The call `fopen(path, "w+")`: on success the file is created or truncated to
length zero and a new stream positioned at offset 0 is returned; on failure the
result is `NULL` and nothing changes. -/
def fopenTrunc (w : World) (path : String) : World × Option Nat :=
  if path ∈ w.denied then (w, none)
  else
    ({ w with
        files := (path, []) :: w.files
        streams := w.streams ++ [{ path := path, pos := 0, buf := [], isOpen := true }] },
      some w.streams.length)

/-- The content of a file after `data` is written at offset `pos`: bytes from `pos`
on are overwritten, and a gap before `pos` is filled with NUL bytes. -/
def writeAt (old : Bytes) (pos : Nat) (data : Bytes) : Bytes :=
  old.take pos ++ List.replicate (pos - old.length) '\x00' ++ data ++
    old.drop (pos + data.length)

/-- The call `fprintf(h, fmt, args...)`: the formatted text is added to the buffer of
the stream. -/
def fprintf (P : PrintfImpl) (w : World) (h : Nat) (fmt : List Char) (args : List Arg) :
    Except Fault World :=
  match w.stream h with
  | none => .error .badStream
  | some st =>
    if st.isOpen then
      match formatted P fmt args with
      | .ok out => .ok { w with streams := w.streams.set h { st with buf := st.buf ++ out } }
      | .error e => .error e
    else .error .closedStream

/-- The call `fflush(h)`: the buffered bytes are written to the file at the file
position of the stream, which advances past them. -/
def fflush (w : World) (h : Nat) : Except Fault World :=
  match w.stream h with
  | none => .error .badStream
  | some st =>
    if st.isOpen then
      .ok { w with
            files := (st.path, writeAt ((w.content st.path).getD []) st.pos st.buf) :: w.files
            streams := w.streams.set h { st with pos := st.pos + st.buf.length, buf := [] } }
    else .error .closedStream

/-- The call `fclose(h)`: the stream is flushed and closed.  Closing a stream that was
already closed is undefined. -/
def fclose (w : World) (h : Nat) : Except Fault World :=
  match fflush w h with
  | .error e => .error e
  | .ok w1 =>
    match w1.stream h with
    | none => .error .badStream
    | some st => .ok { w1 with streams := w1.streams.set h { st with isOpen := false } }

/-! ## The `LIB_ONLY` build: logging to `logfile` -/

namespace LibOnly

/-- The global `FILE *logfile` (`none` is `NULL`) and the world its stream lives in. -/
structure State where
  logfile : Option Nat
  world : World
  deriving DecidableEq, Repr

/-- The macro `TIME_FORMAT` of the `LIB_ONLY` build: `"%Y-%m-%d %H:%M:%S"`. -/
def TIME_FORMAT : List Char := "%Y-%m-%d %H:%M:%S".toList

/-- The macro `USE_LOGFILE(ident)`: `if (ident != NULL) { logfile = fopen(ident, "w+"); }` -/
def USE_LOGFILE (s : State) (ident : Option String) : State :=
  match ident with
  | none => s
  | some path =>
    let r := fopenTrunc s.world path
    { logfile := r.2, world := r.1 }

/-- The macro `CLOSE_LOGFILE`: `if (logfile != NULL) { fclose(logfile); }` -/
def CLOSE_LOGFILE (s : State) : Except Fault State :=
  match s.logfile with
  | none => .ok s
  | some h =>
    match fclose s.world h with
    | .ok w => .ok { s with world := w }
    | .error e => .error e

/-- The format string `" %s INFO: " format "\n"` that `LOGI` passes to `fprintf`. -/
def LOGI_format (fmt : List Char) : List Char :=
  " %s INFO: ".toList ++ fmt ++ "\n".toList

/-- The format string `" %s ERROR: " format "\n"` that `LOGE` passes to `fprintf`. -/
def LOGE_format (fmt : List Char) : List Char :=
  " %s ERROR: ".toList ++ fmt ++ "\n".toList

/-- The macro `LOGI(format, ...)` of the `LIB_ONLY` build:
`if (logfile != NULL) { time_t now = time(NULL); char timestr[20];
strftime(timestr, 20, TIME_FORMAT, localtime(&now));
fprintf(logfile, " %s INFO: " format "\n", timestr, ## __VA_ARGS__); fflush(logfile); }`.
The argument `now` is the local time the calls `time` and `localtime` return. -/
def LOGI (P : PrintfImpl) (s : State) (now : Tm) (fmt : List Char) (args : List Arg) :
    Except Fault State :=
  match s.logfile with
  | none => .ok s
  | some h =>
    match strftime 20 TIME_FORMAT now with
    | .error e => .error e
    | .ok timestr =>
      match fprintf P s.world h (LOGI_format fmt) (Arg.str timestr :: args) with
      | .error e => .error e
      | .ok w1 =>
        match fflush w1 h with
        | .error e => .error e
        | .ok w2 => .ok { s with world := w2 }

/-- The macro `LOGE(format, ...)` of the `LIB_ONLY` build: as `LOGI`, with the format
string `" %s ERROR: " format "\n"`. -/
def LOGE (P : PrintfImpl) (s : State) (now : Tm) (fmt : List Char) (args : List Arg) :
    Except Fault State :=
  match s.logfile with
  | none => .ok s
  | some h =>
    match strftime 20 TIME_FORMAT now with
    | .error e => .error e
    | .ok timestr =>
      match fprintf P s.world h (LOGE_format fmt) (Arg.str timestr :: args) with
      | .error e => .error e
      | .ok w1 =>
        match fflush w1 h with
        | .error e => .error e
        | .ok w2 => .ok { s with world := w2 }

/-- The statements common to `LOGI` and `LOGE`, for any format string `full` handed to
`fprintf`; used to reason about both macros at once. -/
def logTo (P : PrintfImpl) (s : State) (now : Tm) (full : List Char) (args : List Arg) :
    Except Fault State :=
  match s.logfile with
  | none => .ok s
  | some h =>
    match strftime 20 TIME_FORMAT now with
    | .error e => .error e
    | .ok timestr =>
      match fprintf P s.world h full (Arg.str timestr :: args) with
      | .error e => .error e
      | .ok w1 =>
        match fflush w1 h with
        | .error e => .error e
        | .ok w2 => .ok { s with world := w2 }

/-- One logging call of the `LIB_ONLY` build. -/
def log (P : PrintfImpl) (s : State) (c : Call) : Except Fault State :=
  match c.sev with
  | .info => LOGI P s c.now c.fmt c.args
  | .error => LOGE P s c.now c.fmt c.args

/-- A sequence of logging calls, run in order. -/
def run (P : PrintfImpl) (s : State) : List Call → Except Fault State
  | [] => .ok s
  | c :: cs =>
    match log P s c with
    | .ok s1 => run P s1 cs
    | .error e => .error e

/-- One use of a macro of the `LIB_ONLY` build. -/
inductive Op where
  | use_logfile (ident : Option String)
  | close_logfile
  | log (c : Call)
  deriving DecidableEq, Repr

/-- The effect of one macro. -/
def step (P : PrintfImpl) (s : State) : Op → Except Fault State
  | .use_logfile ident => .ok (USE_LOGFILE s ident)
  | .close_logfile => CLOSE_LOGFILE s
  | .log c => log P s c

/-- A program that uses the macros one after the other. -/
def exec (P : PrintfImpl) (s : State) : List Op → Except Fault State
  | [] => .ok s
  | op :: ops =>
    match step P s op with
    | .ok s1 => exec P s1 ops
    | .error e => .error e

/-- The log file is open: `logfile` is the stream `h`, open on the file at `path` whose
visible content is `content`, with nothing buffered and its file position at the end
of the file.  This is the state in which a successful `USE_LOGFILE(path)` and every
`LOGI`/`LOGE` after it leave the log file. -/
def LogOpen (s : State) (h : Nat) (path : String) (content : Bytes) : Prop :=
  s.logfile = some h ∧
  s.world.stream h = some { path := path, pos := content.length, buf := [], isOpen := true } ∧
  s.world.content path = some content

/-- Wherever the macros leave `logfile` pointing at an open stream, the log file is
open in the sense of `LogOpen`. -/
def LogInv (s : State) : Prop :=
  ∀ h st, s.logfile = some h → s.world.stream h = some st → st.isOpen = true →
    ∃ content, LogOpen s h st.path content

end LibOnly

/-! ## The default build: logging to syslog or to standard error -/

namespace Console

/-- The priority `LOG_ERR` of `<syslog.h>`. -/
def LOG_ERR : Nat := 3

/-- The priority `LOG_INFO` of `<syslog.h>`. -/
def LOG_INFO : Nat := 6

/-- The option `LOG_PID` of `<syslog.h>`. -/
def LOG_PID : Nat := 1

/-- The option `LOG_CONS` of `<syslog.h>`. -/
def LOG_CONS : Nat := 2

/-- The globals `use_tty` and `use_syslog` and the sinks of this build: whether
standard error is a terminal at present, the bytes written to standard error so far
(the stream is unbuffered), the parameters of the last `openlog`, and the messages
handed to `syslog` with their priorities. -/
structure State where
  use_tty : Int
  use_syslog : Int
  stderr_tty : Bool
  stderr : Bytes
  opened : Option (String × Nat × Nat)
  sysmsgs : List (Nat × Bytes)
  deriving DecidableEq, Repr

/-- The macro `TIME_FORMAT` of the default build: `"%F %T"`. -/
def TIME_FORMAT : List Char := "%F %T".toList

/-- The call `isatty(STDERR_FILENO)`: 1 when standard error is a terminal, else 0. -/
def isatty_stderr (s : State) : Int :=
  if s.stderr_tty then 1 else 0

/-- The macro `USE_TTY()`: `use_tty = isatty(STDERR_FILENO);` -/
def USE_TTY (s : State) : State :=
  { s with use_tty := isatty_stderr s }

/-- The macro `USE_SYSLOG(ident)`: `use_syslog = 1; openlog((ident), LOG_CONS | LOG_PID, 0);` -/
def USE_SYSLOG (s : State) (ident : String) : State :=
  { s with use_syslog := 1, opened := some (ident, LOG_CONS ||| LOG_PID, 0) }

/-- The call `syslog(priority, fmt, args...)`: the formatted message is handed to the
system logger with its priority. -/
def syslog (P : PrintfImpl) (s : State) (priority : Nat) (fmt : List Char)
    (args : List Arg) : Except Fault State :=
  match formatted P fmt args with
  | .ok msg => .ok { s with sysmsgs := s.sysmsgs ++ [(priority, msg)] }
  | .error e => .error e

/-- The call `fprintf(stderr, fmt, args...)`. -/
def fprintf_stderr (P : PrintfImpl) (s : State) (fmt : List Char) (args : List Arg) :
    Except Fault State :=
  match formatted P fmt args with
  | .ok out => .ok { s with stderr := s.stderr ++ out }
  | .error e => .error e

/-- The format string `"\e[01;32m %s INFO: \e[0m" format "\n"`. -/
def LOGI_format_tty (fmt : List Char) : List Char :=
  "\x1b[01;32m %s INFO: \x1b[0m".toList ++ fmt ++ "\n".toList

/-- The format string `" %s INFO: " format "\n"`. -/
def LOGI_format (fmt : List Char) : List Char :=
  " %s INFO: ".toList ++ fmt ++ "\n".toList

/-- The format string `"\e[01;35m %s ERROR: \e[0m" format "\n"`. -/
def LOGE_format_tty (fmt : List Char) : List Char :=
  "\x1b[01;35m %s ERROR: \x1b[0m".toList ++ fmt ++ "\n".toList

/-- The format string `" %s ERROR: " format "\n"`. -/
def LOGE_format (fmt : List Char) : List Char :=
  " %s ERROR: ".toList ++ fmt ++ "\n".toList

/-- The macro `LOGI(format, ...)` of the default build:
`if (use_syslog) { syslog(LOG_INFO, format, ## __VA_ARGS__); } else { time_t now =
time(NULL); char timestr[20]; strftime(timestr, 20, TIME_FORMAT, localtime(&now));
if (use_tty) { fprintf(stderr, "\e[01;32m %s INFO: \e[0m" format "\n", timestr,
## __VA_ARGS__); } else { fprintf(stderr, " %s INFO: " format "\n", timestr,
## __VA_ARGS__); } }`.  The argument `now` is the local time the calls `time` and
`localtime` return. -/
def LOGI (P : PrintfImpl) (s : State) (now : Tm) (fmt : List Char) (args : List Arg) :
    Except Fault State :=
  if s.use_syslog ≠ 0 then syslog P s LOG_INFO fmt args
  else
    match strftime 20 TIME_FORMAT now with
    | .error e => .error e
    | .ok timestr =>
      if s.use_tty ≠ 0 then fprintf_stderr P s (LOGI_format_tty fmt) (Arg.str timestr :: args)
      else fprintf_stderr P s (LOGI_format fmt) (Arg.str timestr :: args)

/-- The macro `LOGE(format, ...)` of the default build: as `LOGI`, with the priority
`LOG_ERR` and the format strings `"\e[01;35m %s ERROR: \e[0m" format "\n"` and
`" %s ERROR: " format "\n"`. -/
def LOGE (P : PrintfImpl) (s : State) (now : Tm) (fmt : List Char) (args : List Arg) :
    Except Fault State :=
  if s.use_syslog ≠ 0 then syslog P s LOG_ERR fmt args
  else
    match strftime 20 TIME_FORMAT now with
    | .error e => .error e
    | .ok timestr =>
      if s.use_tty ≠ 0 then fprintf_stderr P s (LOGE_format_tty fmt) (Arg.str timestr :: args)
      else fprintf_stderr P s (LOGE_format fmt) (Arg.str timestr :: args)

/-- The statements common to `LOGI` and `LOGE`, for any priority and any two format
strings; used to reason about both macros at once. -/
def logTo (P : PrintfImpl) (s : State) (now : Tm) (priority : Nat)
    (coloured plain fmt : List Char) (args : List Arg) : Except Fault State :=
  if s.use_syslog ≠ 0 then syslog P s priority fmt args
  else
    match strftime 20 TIME_FORMAT now with
    | .error e => .error e
    | .ok timestr =>
      if s.use_tty ≠ 0 then fprintf_stderr P s coloured (Arg.str timestr :: args)
      else fprintf_stderr P s plain (Arg.str timestr :: args)

end Console

/-! ## `ss_free` -/

/-- The pointer variables of the program (`none` is `NULL`), the addresses of the
blocks that are allocated, and the blocks released so far, in order. -/
structure Mem where
  vars : String → Option Nat
  live : List Nat
  freed : List Nat

/-- The call `free(p)`: nothing for `NULL`; a live block is released; anything else is
undefined. -/
def free (m : Mem) (p : Option Nat) : Except Fault Mem :=
  match p with
  | none => .ok m
  | some a =>
    if a ∈ m.live then .ok { m with live := m.live.filter (fun b => b ≠ a), freed := m.freed ++ [a] }
    else .error .badFree

/-- The macro `ss_free(ptr)`: `free(ptr); ptr = NULL;` for a pointer variable `ptr`. -/
def ss_free (m : Mem) (ptr : String) : Except Fault Mem :=
  match free m (m.vars ptr) with
  | .ok m1 => .ok { m1 with vars := Function.update m1.vars ptr none }
  | .error e => .error e

/-! ## Concrete inputs -/

/-- The local time 2024-01-02 03:04:05. -/
def sampleNow : Tm :=
  { tm_sec := 5, tm_min := 4, tm_hour := 3, tm_mday := 2, tm_mon := 0, tm_year := 124 }

/-- A file system in which `x.log` exists with some content and `/root/x.log` cannot
be opened; no stream is open. -/
def sampleWorld : World :=
  { files := [("x.log", "stale\n".toList)], denied := ["/root/x.log"], streams := [] }

/-- The `LIB_ONLY` build before `USE_LOGFILE` ran. -/
def sampleInit : LibOnly.State :=
  { logfile := none, world := sampleWorld }

/-- The `LIB_ONLY` build after `USE_LOGFILE("x.log")`. -/
def sampleOpen : LibOnly.State :=
  LibOnly.USE_LOGFILE sampleInit (some "x.log")

/-- The calls `LOGI("hello %s", "world"); LOGE("code %d", 7);`. -/
def sampleCalls : List Call :=
  [{ sev := .info, now := sampleNow, fmt := "hello %s".toList, args := [Arg.str "world".toList] },
   { sev := .error, now := sampleNow, fmt := "code %d".toList, args := [Arg.int 7] }]

/-- The default build with both flags clear, standard error being a terminal. -/
def samplePlain : Console.State :=
  { use_tty := 0, use_syslog := 0, stderr_tty := true, stderr := [], opened := none,
    sysmsgs := [] }

/-- The default build after `USE_TTY()` on a terminal. -/
def sampleTty : Console.State :=
  Console.USE_TTY samplePlain

/-- The default build after `USE_SYSLOG("ss-local")`. -/
def sampleSyslog : Console.State :=
  Console.USE_SYSLOG samplePlain "ss-local"

/-- Two pointer variables holding two live blocks. -/
def sampleMem : Mem :=
  { vars := fun v => if v = "buf" then some 16 else if v = "other" then some 32 else none
    live := [16, 32]
    freed := [] }

/-! # Theorems -/

/-! ## Timestamps -/

theorem toDigits_four (y : Nat) (h1 : 1000 ≤ y) (h2 : y ≤ 9999) :
    Nat.toDigits 10 y =
      [Nat.digitChar (y / 1000), Nat.digitChar (y / 100 % 10), Nat.digitChar (y / 10 % 10),
        Nat.digitChar (y % 10)] := by
  obtain ⟨k, rfl⟩ : ∃ k, y = k + 3 := ⟨y - 3, by omega⟩
  have a1 : (k + 3) / 10 ≠ 0 := by omega
  have a2 : (k + 3) / 10 / 10 ≠ 0 := by omega
  have a3 : (k + 3) / 10 / 10 / 10 ≠ 0 := by omega
  have a4 : (k + 3) / 10 / 10 / 10 / 10 = 0 := by omega
  have e1 : (k + 3) / 10 / 10 / 10 % 10 = (k + 3) / 1000 := by omega
  have e2 : (k + 3) / 10 / 10 % 10 = (k + 3) / 100 % 10 := by omega
  simp only [Nat.toDigits, Nat.toDigitsCore, a1, a2, a3, a4, if_false, if_true, e1, e2]

theorem digitChar_isDigit (d : Nat) (h : d < 10) : (Nat.digitChar d).isDigit = true := by
  interval_cases d <;> decide

theorem toDigitsCore_isDigit (fuel : Nat) :
    ∀ (n : Nat) (acc : List Char), (∀ c ∈ acc, c.isDigit = true) →
      ∀ c ∈ Nat.toDigitsCore 10 fuel n acc, c.isDigit = true := by
  induction fuel with
  | zero => intro n acc hacc c hc; exact hacc c (by simpa [Nat.toDigitsCore] using hc)
  | succ fuel ih =>
    intro n acc hacc c hc
    have hd : ∀ c ∈ Nat.digitChar (n % 10) :: acc, c.isDigit = true := by
      intro c hc
      rcases List.mem_cons.mp hc with rfl | hc
      · exact digitChar_isDigit _ (Nat.mod_lt _ (by decide))
      · exact hacc c hc
    simp only [Nat.toDigitsCore] at hc
    split at hc
    · exact hd c hc
    · exact ih _ _ hd c hc

theorem toDigits_isDigit (n : Nat) : ∀ c ∈ Nat.toDigits 10 n, c.isDigit = true :=
  toDigitsCore_isDigit _ _ _ (by simp)

/-- Both `TIME_FORMAT` strings stand for the same text. -/
theorem strftimeText_LibOnly (now : Tm) :
    strftimeText LibOnly.TIME_FORMAT now =
      .ok (conv_Y now ++ '-' :: pad2 (now.tm_mon + 1) ++ '-' :: pad2 now.tm_mday ++
        ' ' :: pad2 now.tm_hour ++ ':' :: pad2 now.tm_min ++ ':' :: pad2 now.tm_sec) := by
  simp [LibOnly.TIME_FORMAT, strftimeText, strftimeConv]

theorem strftimeText_Console (now : Tm) :
    strftimeText Console.TIME_FORMAT now =
      .ok (conv_Y now ++ '-' :: pad2 (now.tm_mon + 1) ++ '-' :: pad2 now.tm_mday ++
        ' ' :: pad2 now.tm_hour ++ ':' :: pad2 now.tm_min ++ ':' :: pad2 now.tm_sec) := by
  simp [Console.TIME_FORMAT, strftimeText, strftimeConv]

theorem strftime_formats_agree (max : Nat) (now : Tm) :
    strftime max Console.TIME_FORMAT now = strftime max LibOnly.TIME_FORMAT now := by
  simp only [strftime, strftimeText_LibOnly, strftimeText_Console]

theorem pad2_timeChar (n : Nat) : ∀ c ∈ pad2 n, timeChar c := by
  intro c hc
  unfold pad2 at hc
  split at hc
  · simp only [List.mem_cons, List.mem_singleton, List.not_mem_nil, or_false] at hc
    rcases hc with rfl | rfl
    · exact Or.inl (digitChar_isDigit _ (by omega))
    · exact Or.inl (digitChar_isDigit _ (Nat.mod_lt _ (by decide)))
  · exact Or.inl (toDigits_isDigit n c hc)

theorem conv_Y_timeChar (now : Tm) : ∀ c ∈ conv_Y now, timeChar c := by
  intro c hc
  unfold conv_Y decimalInt at hc
  split at hc
  · rcases List.mem_cons.mp hc with rfl | hc
    · exact Or.inr (Or.inl rfl)
    · exact Or.inl (toDigits_isDigit _ c hc)
  · exact Or.inl (toDigits_isDigit _ c hc)

theorem strftime_timeChar (max : Nat) (now : Tm) (ts : Bytes)
    (h : strftime max LibOnly.TIME_FORMAT now = .ok ts) : ∀ c ∈ ts, timeChar c := by
  simp only [strftime, strftimeText_LibOnly] at h
  split at h
  · injection h with h
    subst h
    simp only [List.forall_mem_append, List.forall_mem_cons]
    and_intros
    all_goals
      first
        | exact conv_Y_timeChar now
        | exact pad2_timeChar _
        | exact Or.inr (Or.inl rfl)
        | exact Or.inr (Or.inr (Or.inl rfl))
        | exact Or.inr (Or.inr (Or.inr rfl))
  · cases h

/-- For a local time in range whose year has four digits, `strftime` fills the buffer
of 20 bytes with a timestamp of the fixed pattern. -/
theorem strftime_isTimestamp (now : Tm) (hr : now.inRange) (hy : now.fourDigitYear) :
    ∃ ts, strftime 20 LibOnly.TIME_FORMAT now = .ok ts ∧ isTimestamp ts = true ∧
      ts.length = 19 := by
  obtain ⟨h1, h2, h3, h4, h5, h6⟩ := hr
  obtain ⟨y1, y2⟩ := hy
  obtain ⟨y, hyy⟩ : ∃ y : Nat, now.tm_year + 1900 = (y : Int) :=
    ⟨(now.tm_year + 1900).toNat, by omega⟩
  have hy1 : 1000 ≤ y := by omega
  have hy2 : y ≤ 9999 := by omega
  have hY : conv_Y now = Nat.toDigits 10 y := by
    simp [conv_Y, decimalInt, hyy]
  have p1 : now.tm_mon + 1 < 100 := by omega
  have p2 : now.tm_mday < 100 := by omega
  have p3 : now.tm_hour < 100 := by omega
  have p4 : now.tm_min < 100 := by omega
  have p5 : now.tm_sec < 100 := by omega
  have d : ∀ n, (Nat.digitChar (n % 10)).isDigit = true :=
    fun n => digitChar_isDigit _ (Nat.mod_lt _ (by decide))
  have d1 := digitChar_isDigit (y / 1000) (by omega)
  have d2 := digitChar_isDigit ((now.tm_mon + 1) / 10) (by omega)
  have d3 := digitChar_isDigit (now.tm_mday / 10) (by omega)
  have d4 := digitChar_isDigit (now.tm_hour / 10) (by omega)
  have d5 := digitChar_isDigit (now.tm_min / 10) (by omega)
  have d6 := digitChar_isDigit (now.tm_sec / 10) (by omega)
  simp only [strftime, strftimeText_LibOnly, hY, toDigits_four y hy1 hy2, pad2, p1, p2, p3,
    p4, p5, if_true]
  refine ⟨_, rfl, ?_, rfl⟩
  simp [isTimestamp, matchesPattern, d, d1, d2, d3, d4, d5, d6]


theorem newline_not_timeChar : ¬ timeChar '\n' := by
  unfold timeChar
  decide

theorem esc_not_timeChar : ¬ timeChar '\x1b' := by
  unfold timeChar
  decide

/-! ## Formatting lemmas -/

/-- Appending a newline to a format string appends a newline to the text, and makes no
faulty format valid. -/
theorem vformat_append_newline (P : PrintfImpl) (fmt : List Char) :
    ∀ (st : Option (List Char)) (args : List Arg),
      vformat P st (fmt ++ ['\n']) args =
        match vformat P st fmt args with
        | .ok (out, rest) => .ok (out ++ ['\n'], rest)
        | .error e => .error e := by
  induction fmt with
  | nil =>
    intro st args
    cases st with
    | none => simp [vformat]
    | some mods => simp [vformat, isConversion, isModifier]
  | cons c fmt ih =>
    intro st args
    cases st with
    | none =>
      by_cases hc : c = '%'
      · simp [vformat, hc, ih]
      · simp only [List.cons_append, vformat, hc, if_false, List.append_eq, ih]
        cases vformat P none fmt args <;> rfl
    | some mods =>
      simp only [List.cons_append, vformat, List.append_eq, ih]
      by_cases h1 : isConversion c = true
      · simp only [h1, if_true]
        cases P.conv mods c args with
        | error e => rfl
        | ok r =>
          obtain ⟨txt, args1⟩ := r
          simp only []
          generalize vformat P none fmt args1 = r
          cases r with
          | error e => rfl
          | ok r => simp
      · simp only [h1]
        by_cases h2 : isModifier c = true
        · simp [h2]
        · simp [h2]

/-- Ordinary characters in front of a format string are copied in front of the text. -/
theorem format_literals (P : PrintfImpl) (lit : List Char) (hlit : '%' ∉ lit)
    (fmt : List Char) (args : List Arg) :
    format P (lit ++ fmt) args =
      match format P fmt args with
      | .ok (out, rest) => .ok (lit ++ out, rest)
      | .error e => .error e := by
  induction lit with
  | nil => rcases h : format P fmt args with e | ⟨out, rest⟩ <;> simp [h]
  | cons c lit ih =>
    have hc : c ≠ '%' := fun h => hlit (by simp [h])
    have hl : '%' ∉ lit := fun h => hlit (by simp [h])
    have ih1 := ih hl
    simp only [format] at ih1 ⊢
    simp only [List.cons_append, vformat, hc, if_false, List.append_eq, ih1]
    generalize vformat P none fmt args = r
    cases r <;> rfl

/-- A plain `%s` in front of a format string takes the first argument, a string. -/
theorem format_percent_s (P : PrintfImpl) (ts : Bytes) (fmt : List Char) (args : List Arg) :
    format P ('%' :: 's' :: fmt) (Arg.str ts :: args) =
      match format P fmt args with
      | .ok (out, rest) => .ok (ts ++ out, rest)
      | .error e => .error e := by
  simp [format, vformat, isConversion, P.conv_s]

/-- The shape of every format string the logging macros build: literal text, the `%s`
of the timestamp, literal text, the caller's format and a newline. -/
theorem format_template (P : PrintfImpl) (pre post : List Char) (hpre : '%' ∉ pre)
    (hpost : '%' ∉ post) (ts : Bytes) (fmt : List Char) (args : List Arg) :
    format P (pre ++ '%' :: 's' :: post ++ fmt ++ ['\n']) (Arg.str ts :: args) =
      match format P fmt args with
      | .ok (m, rest) => .ok (pre ++ ts ++ post ++ m ++ ['\n'], rest)
      | .error e => .error e := by
  have h1 : pre ++ '%' :: 's' :: post ++ fmt ++ ['\n'] =
      pre ++ ('%' :: 's' :: (post ++ (fmt ++ ['\n']))) := by simp
  rw [h1, format_literals P pre hpre, format_percent_s, format_literals P post hpost]
  have h2 := vformat_append_newline P fmt none args
  simp only [format] at h2 ⊢
  rw [h2]
  generalize vformat P none fmt args = r
  cases r with
  | error e => rfl
  | ok r => simp

/-- The text version of `format_template`. -/
theorem formatted_template (P : PrintfImpl) (pre post : List Char) (hpre : '%' ∉ pre)
    (hpost : '%' ∉ post) (ts : Bytes) (fmt : List Char) (args : List Arg) :
    formatted P (pre ++ '%' :: 's' :: post ++ fmt ++ ['\n']) (Arg.str ts :: args) =
      match formatted P fmt args with
      | .ok m => .ok (pre ++ ts ++ post ++ m ++ ['\n'])
      | .error e => .error e := by
  simp only [formatted, format_template P pre post hpre hpost]
  generalize format P fmt args = r
  cases r <;> rfl

theorem formatted_LOGI_format (P : PrintfImpl) (ts m : Bytes) (fmt : List Char)
    (args : List Arg) (hm : formatted P fmt args = .ok m) :
    formatted P (LibOnly.LOGI_format fmt) (Arg.str ts :: args) = .ok (specLine .info ts m) := by
  have h := formatted_template P " ".toList " INFO: ".toList (by decide) (by decide) ts fmt args
  rw [hm] at h
  simpa [LibOnly.LOGI_format, specLine] using h

theorem formatted_LOGE_format (P : PrintfImpl) (ts m : Bytes) (fmt : List Char)
    (args : List Arg) (hm : formatted P fmt args = .ok m) :
    formatted P (LibOnly.LOGE_format fmt) (Arg.str ts :: args) = .ok (specLine .error ts m) := by
  have h := formatted_template P " ".toList " ERROR: ".toList (by decide) (by decide) ts fmt args
  rw [hm] at h
  simpa [LibOnly.LOGE_format, specLine] using h

/-! ## The log file -/

theorem writeAt_end (old data : Bytes) : writeAt old old.length data = old ++ data := by
  simp [writeAt]

theorem stream_lt {w : World} {h : Nat} {st : Stream} (hst : w.stream h = some st) :
    h < w.streams.length := by
  unfold World.stream at hst
  by_contra hcon
  rw [List.getElem?_eq_none (by omega)] at hst
  cases hst

/-- One logging call on an open log file appends the line `fprintf` formats and leaves
the log file open, flushed and positioned at its end. -/
theorem logTo_LogOpen (P : PrintfImpl) (s : LibOnly.State) (h : Nat) (path : String)
    (old : Bytes) (now : Tm) (full : List Char) (args : List Arg) (ts line : Bytes)
    (hs : LibOnly.LogOpen s h path old)
    (hts : strftime 20 LibOnly.TIME_FORMAT now = .ok ts)
    (hfmt : formatted P full (Arg.str ts :: args) = .ok line) :
    ∃ s1, LibOnly.logTo P s now full args = .ok s1 ∧
      LibOnly.LogOpen s1 h path (old ++ line) := by
  obtain ⟨hl, hst, hc⟩ := hs
  have hlt := stream_lt hst
  simp only [World.stream] at hst
  simp only [World.content] at hc
  simp only [LibOnly.logTo, hl, hts, fprintf, hst, hfmt, if_true, fflush, World.stream,
    List.getElem?_set_self hlt, World.content, hc]
  refine ⟨_, rfl, rfl, ?_, ?_⟩
  · simp [World.stream, List.getElem?_set_self hlt]
  · simp [World.content, writeAt_end]

/-! ## The File backend -/

theorem run_LogOpen (P : PrintfImpl) (h : Nat) (path : String) (ts m : Call → Bytes)
    (calls : List Call) :
    ∀ (s : LibOnly.State) (old : Bytes), LibOnly.LogOpen s h path old →
      (∀ c ∈ calls, strftime 20 LibOnly.TIME_FORMAT c.now = .ok (ts c) ∧
        formatted P c.fmt c.args = .ok (m c)) →
      ∃ s1, LibOnly.run P s calls = .ok s1 ∧
        LibOnly.LogOpen s1 h path
          (old ++ (calls.map fun c => specLine c.sev (ts c) (m c)).flatten) := by
  induction calls with
  | nil => intro s old hs _; exact ⟨s, rfl, by simpa using hs⟩
  | cons c calls ih =>
    intro s old hs hc
    obtain ⟨hts, hm⟩ := hc c (by simp)
    have hstep : ∃ s1, LibOnly.log P s c = .ok s1 ∧
        LibOnly.LogOpen s1 h path (old ++ specLine c.sev (ts c) (m c)) := by
      unfold LibOnly.log
      cases hsev : c.sev with
      | info =>
        exact logTo_LogOpen P s h path old c.now _ c.args (ts c) _ hs hts
          (formatted_LOGI_format P (ts c) (m c) c.fmt c.args hm)
      | error =>
        exact logTo_LogOpen P s h path old c.now _ c.args (ts c) _ hs hts
          (formatted_LOGE_format P (ts c) (m c) c.fmt c.args hm)
    obtain ⟨s1, hs1, ho1⟩ := hstep
    obtain ⟨s2, hs2, ho2⟩ := ih s1 _ ho1 (fun d hd => hc d (by simp [hd]))
    refine ⟨s2, ?_, ?_⟩
    · simp only [LibOnly.run, hs1, hs2]
    · simpa using ho2

/-- C1. File backend: on an open log file (`LogOpen`, the condition of `logfile` in
every state the macros reach with the stream open, by `reachable_open_LogOpen`),
`LOGI` appends exactly `" " ++ ts ++ " INFO: " ++ m ++ "\n"` and `LOGE` exactly
`" " ++ ts ++ " ERROR: " ++ m ++ "\n"`, where `ts` is the timestamp and `m` the
formatted message; after any sequence of such calls the visible content of the file
is the previous content followed by those lines in call order, and the stream is left
open with an empty buffer (every call flushes). -/
theorem file_backend_appends_lines (P : PrintfImpl) (s : LibOnly.State) (h : Nat)
    (path : String) (old : Bytes) (hs : LibOnly.LogOpen s h path old) :
    (∀ (now : Tm) (fmt : List Char) (args : List Arg) (ts m : Bytes),
      strftime 20 LibOnly.TIME_FORMAT now = .ok ts → formatted P fmt args = .ok m →
      ∃ s1, LibOnly.LOGI P s now fmt args = .ok s1 ∧
        LibOnly.LogOpen s1 h path
          (old ++ (" ".toList ++ ts ++ " INFO: ".toList ++ m ++ "\n".toList))) ∧
    (∀ (now : Tm) (fmt : List Char) (args : List Arg) (ts m : Bytes),
      strftime 20 LibOnly.TIME_FORMAT now = .ok ts → formatted P fmt args = .ok m →
      ∃ s1, LibOnly.LOGE P s now fmt args = .ok s1 ∧
        LibOnly.LogOpen s1 h path
          (old ++ (" ".toList ++ ts ++ " ERROR: ".toList ++ m ++ "\n".toList))) ∧
    (∀ (calls : List Call) (ts m : Call → Bytes),
      (∀ c ∈ calls, strftime 20 LibOnly.TIME_FORMAT c.now = .ok (ts c) ∧
        formatted P c.fmt c.args = .ok (m c)) →
      ∃ s1, LibOnly.run P s calls = .ok s1 ∧
        LibOnly.LogOpen s1 h path
          (old ++ (calls.map fun c => specLine c.sev (ts c) (m c)).flatten)) := by
  refine ⟨?_, ?_, ?_⟩
  · intro now fmt args ts m hts hm
    exact logTo_LogOpen P s h path old now _ args ts _ hs hts
      (formatted_LOGI_format P ts m fmt args hm)
  · intro now fmt args ts m hts hm
    exact logTo_LogOpen P s h path old now _ args ts _ hs hts
      (formatted_LOGE_format P ts m fmt args hm)
  · intro calls ts m hc
    exact run_LogOpen P h path ts m calls s old hs hc

theorem sampleOpen_LogOpen : LibOnly.LogOpen sampleOpen 0 "x.log" [] := by
  refine ⟨rfl, rfl, rfl⟩

/-- Witness of C1: the two sample calls on the freshly opened `x.log`. -/
theorem file_backend_appends_lines_witness :
    LibOnly.LogOpen sampleOpen 0 "x.log" [] ∧
      ∃ s1, LibOnly.run basicPrintf sampleOpen sampleCalls = .ok s1 ∧
        LibOnly.LogOpen s1 0 "x.log"
          " 2024-01-02 03:04:05 INFO: hello world\n 2024-01-02 03:04:05 ERROR: code 7\n".toList :=
  ⟨sampleOpen_LogOpen,
    (file_backend_appends_lines basicPrintf sampleOpen 0 "x.log" [] sampleOpen_LogOpen).2.2
      sampleCalls (fun _ => "2024-01-02 03:04:05".toList)
      (fun c => if c.sev = .info then "hello world".toList else "code 7".toList)
      (by
        intro c hc
        simp only [sampleCalls, List.mem_cons, List.mem_singleton, List.not_mem_nil,
          or_false] at hc
        rcases hc with rfl | rfl <;> exact ⟨rfl, rfl⟩)⟩

theorem USE_LOGFILE_LogOpen (s : LibOnly.State) (path : String)
    (hopen : (LibOnly.USE_LOGFILE s (some path)).logfile ≠ none) :
    LibOnly.LogOpen (LibOnly.USE_LOGFILE s (some path)) s.world.streams.length path [] := by
  unfold LibOnly.USE_LOGFILE fopenTrunc at *
  by_cases hd : path ∈ s.world.denied
  · simp [hd] at hopen
  · simp [hd, LibOnly.LogOpen, World.stream, World.content]

theorem logTo_keeps_LogInv (P : PrintfImpl) (s s1 : LibOnly.State) (now : Tm)
    (full : List Char) (args : List Arg) (hinv : LibOnly.LogInv s)
    (hrun : LibOnly.logTo P s now full args = .ok s1) : LibOnly.LogInv s1 := by
  cases hl : s.logfile with
  | none =>
    simp only [LibOnly.logTo, hl] at hrun
    cases hrun
    exact hinv
  | some h =>
    simp only [LibOnly.logTo, hl] at hrun
    cases hts : strftime 20 LibOnly.TIME_FORMAT now with
    | error e => simp [hts] at hrun
    | ok ts =>
      cases hst : s.world.stream h with
      | none => simp [hts, fprintf, hst] at hrun
      | some st =>
        cases hopen : st.isOpen with
        | false => simp [hts, fprintf, hst, hopen] at hrun
        | true =>
          cases hfmt : formatted P full (Arg.str ts :: args) with
          | error e => simp [hts, fprintf, hst, hopen, hfmt] at hrun
          | ok line =>
            obtain ⟨content, ho⟩ := hinv h st hl hst hopen
            obtain ⟨s2, h2, ho2⟩ := logTo_LogOpen P s h st.path content now full args ts line
              ho hts hfmt
            have hrun2 : LibOnly.logTo P s now full args = .ok s1 := by
              simp only [LibOnly.logTo, hl]
              exact hrun
            rw [h2] at hrun2
            cases hrun2
            intro h1 st1 hl1 hst1 _
            have e1 : h1 = h := by
              have := ho2.1
              rw [hl1] at this
              exact Option.some.inj this
            subst e1
            have e2 : st1.path = st.path := by
              have := ho2.2.1
              rw [hst1] at this
              cases this
              rfl
            rw [e2]
            exact ⟨_, ho2⟩

theorem step_keeps_LogInv (P : PrintfImpl) (s s1 : LibOnly.State) (op : LibOnly.Op)
    (hinv : LibOnly.LogInv s) (hrun : LibOnly.step P s op = .ok s1) : LibOnly.LogInv s1 := by
  cases op with
  | use_logfile ident =>
    simp only [LibOnly.step, Except.ok.injEq] at hrun
    subst hrun
    cases ident with
    | none => exact hinv
    | some path =>
      intro h st hl hst _
      have hne : (LibOnly.USE_LOGFILE s (some path)).logfile ≠ none := by simp [hl]
      have ho := USE_LOGFILE_LogOpen s path hne
      have e1 : h = s.world.streams.length := by
        have := ho.1
        rw [hl] at this
        exact Option.some.inj this
      subst e1
      have e2 : st.path = path := by
        have := ho.2.1
        rw [hst] at this
        cases this
        rfl
      rw [e2]
      exact ⟨_, ho⟩
  | close_logfile =>
    simp only [LibOnly.step, LibOnly.CLOSE_LOGFILE] at hrun
    cases hl : s.logfile with
    | none =>
      simp only [hl] at hrun
      cases hrun
      exact hinv
    | some h =>
      simp only [hl, fclose] at hrun
      cases hf : fflush s.world h with
      | error e => simp [hf] at hrun
      | ok w1 =>
        cases hst : w1.stream h with
        | none => simp [hf, hst] at hrun
        | some st =>
          simp only [hf, hst, Except.ok.injEq] at hrun
          subst hrun
          intro h1 st1 hl1 hst1 hopen1
          simp only [hl, Option.some.injEq] at hl1
          subst hl1
          have hlt := stream_lt hst
          simp only [World.stream, List.getElem?_set_self hlt, Option.some.injEq] at hst1
          subst hst1
          simp at hopen1
  | log c =>
    simp only [LibOnly.step, LibOnly.log] at hrun
    cases hsev : c.sev with
    | info =>
      simp only [hsev] at hrun
      exact logTo_keeps_LogInv P s s1 c.now _ c.args hinv hrun
    | error =>
      simp only [hsev] at hrun
      exact logTo_keeps_LogInv P s s1 c.now _ c.args hinv hrun

/-- In every state a program reaches from `logfile == NULL` by the macros alone, a
`logfile` that points at an open stream satisfies `LogOpen`: nothing is buffered and
the file position is the end of the file. -/
theorem reachable_open_LogOpen (P : PrintfImpl) (ops : List LibOnly.Op) :
    ∀ (s0 s : LibOnly.State), LibOnly.LogInv s0 → LibOnly.exec P s0 ops = .ok s → LibOnly.LogInv s := by
  induction ops with
  | nil =>
    intro s0 s hinv hrun
    simp only [LibOnly.exec, Except.ok.injEq] at hrun
    subst hrun
    exact hinv
  | cons op ops ih =>
    intro s0 s hinv hrun
    simp only [LibOnly.exec] at hrun
    cases hstep : LibOnly.step P s0 op with
    | error e => simp [hstep] at hrun
    | ok s1 =>
      simp only [hstep] at hrun
      exact ih s1 s (step_keeps_LogInv P s0 s1 op hinv hstep) hrun

theorem null_logfile_LogInv (s : LibOnly.State) (h : s.logfile = none) : LibOnly.LogInv s := by
  intro h1 st hl
  rw [h] at hl
  cases hl

/-- C2. File backend: whatever the file at `path` held before, once `USE_LOGFILE(path)`
has opened it and `LOGI("hello %s", "world")` has returned, the visible content of the
file is the single line `" " ++ ts ++ " INFO: hello world" ++ "\n"`, where `ts` is a
timestamp of the pattern `YYYY-MM-DD HH:MM:SS` (19 characters), for a local time whose
year has four digits; the same holds for any message without a newline. -/
theorem logfile_holds_one_line_after_open (P : PrintfImpl) (s : LibOnly.State)
    (path : String) (now : Tm)
    (hopen : (LibOnly.USE_LOGFILE s (some path)).logfile ≠ none)
    (hr : now.inRange) (hy : now.fourDigitYear) :
    ∃ ts, isTimestamp ts = true ∧ ts.length = 19 ∧
      (∃ s1, LibOnly.LOGI P (LibOnly.USE_LOGFILE s (some path)) now "hello %s".toList
          [Arg.str "world".toList] = .ok s1 ∧
        s1.world.content path =
          some (" ".toList ++ ts ++ " INFO: hello world".toList ++ "\n".toList) ∧
        '\n' ∉ " ".toList ++ ts ++ " INFO: hello world".toList) ∧
      (∀ (fmt : List Char) (args : List Arg) (m : Bytes),
        formatted P fmt args = .ok m → '\n' ∉ m →
        ∃ s1, LibOnly.LOGI P (LibOnly.USE_LOGFILE s (some path)) now fmt args = .ok s1 ∧
          s1.world.content path =
            some (" ".toList ++ ts ++ " INFO: ".toList ++ m ++ "\n".toList) ∧
          '\n' ∉ " ".toList ++ ts ++ " INFO: ".toList ++ m) := by
  obtain ⟨ts, hts, hpat, hlen⟩ := strftime_isTimestamp now hr hy
  have ho := USE_LOGFILE_LogOpen s path hopen
  have hnl : '\n' ∉ ts := fun hmem => newline_not_timeChar (strftime_timeChar 20 now ts hts _ hmem)
  have gen : ∀ (fmt : List Char) (args : List Arg) (m : Bytes),
      formatted P fmt args = .ok m → '\n' ∉ m →
      ∃ s1, LibOnly.LOGI P (LibOnly.USE_LOGFILE s (some path)) now fmt args = .ok s1 ∧
        s1.world.content path =
          some (" ".toList ++ ts ++ " INFO: ".toList ++ m ++ "\n".toList) ∧
        '\n' ∉ " ".toList ++ ts ++ " INFO: ".toList ++ m := by
    intro fmt args m hm hmnl
    obtain ⟨s1, h1, h2⟩ := logTo_LogOpen P _ _ path [] now _ args ts _ ho hts
      (formatted_LOGI_format P ts m fmt args hm)
    refine ⟨s1, h1, ?_, ?_⟩
    · simpa [specLine] using h2.2.2
    · simp [hnl, hmnl]
  refine ⟨ts, hpat, hlen, ?_, gen⟩
  have hw : formatted P "hello %s".toList [Arg.str "world".toList] = .ok "hello world".toList := by
    simp [formatted, format, vformat, isConversion, P.conv_s]
  obtain ⟨s1, h1, h2, h3⟩ := gen _ _ _ hw (by decide)
  refine ⟨s1, h1, ?_, ?_⟩
  · simpa using h2
  · simpa using h3

/-- Witness of C2: `x.log`, which held `stale`, at 2024-01-02 03:04:05. -/
theorem logfile_holds_one_line_after_open_witness :
    (LibOnly.USE_LOGFILE sampleInit (some "x.log")).logfile ≠ none ∧ sampleNow.inRange ∧
      sampleNow.fourDigitYear ∧
      ∃ ts, isTimestamp ts = true ∧ ts.length = 19 ∧
        ∃ s1, LibOnly.LOGI basicPrintf (LibOnly.USE_LOGFILE sampleInit (some "x.log")) sampleNow
            "hello %s".toList [Arg.str "world".toList] = .ok s1 ∧
          s1.world.content "x.log" =
            some (" ".toList ++ ts ++ " INFO: hello world".toList ++ "\n".toList) :=
  have h1 : (LibOnly.USE_LOGFILE sampleInit (some "x.log")).logfile ≠ none := by decide
  have h2 : sampleNow.inRange := by unfold Tm.inRange; decide
  have h3 : sampleNow.fourDigitYear := by unfold Tm.fourDigitYear; decide
  ⟨h1, h2, h3,
    (logfile_holds_one_line_after_open basicPrintf sampleInit "x.log" sampleNow h1 h2 h3).imp
      fun _ h => ⟨h.1, h.2.1, h.2.2.1.imp fun _ g => ⟨g.1, g.2.1⟩⟩⟩

/-- C3. File backend: while `logfile` is `NULL`, every `LOGI` and `LOGE` call, whatever
its format and arguments (a malformed format included) and whatever the time, returns
normally and leaves `logfile`, every stream and every file as they were; this is the
case after a `USE_LOGFILE` whose `fopen` failed, which changes nothing but `logfile`. -/
theorem null_logfile_is_silent_noop (P : PrintfImpl) (s : LibOnly.State)
    (hnull : s.logfile = none) :
    (∀ (now : Tm) (fmt : List Char) (args : List Arg),
      LibOnly.LOGI P s now fmt args = .ok s ∧ LibOnly.LOGE P s now fmt args = .ok s) ∧
    LibOnly.USE_LOGFILE s none = s ∧
    (∀ (s0 : LibOnly.State) (path : String), path ∈ s0.world.denied →
      LibOnly.USE_LOGFILE s0 (some path) = { s0 with logfile := none }) := by
  refine ⟨?_, rfl, ?_⟩
  · intro now fmt args
    simp [LibOnly.LOGI, LibOnly.LOGE, LibOnly.logTo, hnull]
  · intro s0 path hp
    simp [LibOnly.USE_LOGFILE, fopenTrunc, hp]

/-- Witness of C3: before `USE_LOGFILE` ran, a call with a malformed format. -/
theorem null_logfile_is_silent_noop_witness :
    sampleInit.logfile = none ∧
      LibOnly.LOGI basicPrintf sampleInit sampleNow "100%".toList [] = .ok sampleInit ∧
      LibOnly.LOGE basicPrintf sampleInit sampleNow "%s".toList [] = .ok sampleInit :=
  ⟨rfl, ((null_logfile_is_silent_noop basicPrintf sampleInit rfl).1 sampleNow _ _).1,
    ((null_logfile_is_silent_noop basicPrintf sampleInit rfl).1 sampleNow _ _).2⟩

/-- C4, evaluated. `CLOSE_LOGFILE` does nothing while `logfile` is `NULL`; on the open
log file it closes the stream and leaves `logfile` pointing at it, so that a second
`CLOSE_LOGFILE` passes the closed stream to `fclose` again, and so that the guard
`logfile != NULL` of `LOGI` lets a later call write to the closed stream. -/
theorem close_logfile_twice_closes_twice :
    LibOnly.CLOSE_LOGFILE sampleInit = .ok sampleInit ∧
      ∃ s1, LibOnly.CLOSE_LOGFILE sampleOpen = .ok s1 ∧ s1.logfile = some 0 ∧
        s1.world.stream 0 = some { path := "x.log", pos := 0, buf := [], isOpen := false } ∧
        LibOnly.CLOSE_LOGFILE s1 = .error .closedStream ∧
        LibOnly.LOGI basicPrintf s1 sampleNow "hi".toList [] = .error .closedStream :=
  ⟨rfl, _, rfl, rfl, rfl, rfl, rfl⟩

/-! ## The ConsoleSyslog backend -/

theorem formatted_Console_LOGI_format (P : PrintfImpl) (ts m : Bytes) (fmt : List Char)
    (args : List Arg) (hm : formatted P fmt args = .ok m) :
    formatted P (Console.LOGI_format fmt) (Arg.str ts :: args) = .ok (specLine .info ts m) :=
  formatted_LOGI_format P ts m fmt args hm

theorem formatted_Console_LOGE_format (P : PrintfImpl) (ts m : Bytes) (fmt : List Char)
    (args : List Arg) (hm : formatted P fmt args = .ok m) :
    formatted P (Console.LOGE_format fmt) (Arg.str ts :: args) = .ok (specLine .error ts m) :=
  formatted_LOGE_format P ts m fmt args hm

theorem formatted_LOGI_format_tty (P : PrintfImpl) (ts m : Bytes) (fmt : List Char)
    (args : List Arg) (hm : formatted P fmt args = .ok m) :
    formatted P (Console.LOGI_format_tty fmt) (Arg.str ts :: args) =
      .ok (colouredLine .info ts m) := by
  have h := formatted_template P "\x1b[01;32m ".toList " INFO: \x1b[0m".toList (by decide)
    (by decide) ts fmt args
  rw [hm] at h
  simpa [Console.LOGI_format_tty, colouredLine] using h

theorem formatted_LOGE_format_tty (P : PrintfImpl) (ts m : Bytes) (fmt : List Char)
    (args : List Arg) (hm : formatted P fmt args = .ok m) :
    formatted P (Console.LOGE_format_tty fmt) (Arg.str ts :: args) =
      .ok (colouredLine .error ts m) := by
  have h := formatted_template P "\x1b[01;35m ".toList " ERROR: \x1b[0m".toList (by decide)
    (by decide) ts fmt args
  rw [hm] at h
  simpa [Console.LOGE_format_tty, colouredLine] using h

/-- What one logging call of the default build does when syslog is off. -/
theorem Console_logTo_stderr (P : PrintfImpl) (s : Console.State) (now : Tm) (prio : Nat)
    (coloured plain fmt : List Char) (args : List Arg) (ts cl pl : Bytes)
    (hsys : s.use_syslog = 0)
    (hts : strftime 20 Console.TIME_FORMAT now = .ok ts)
    (hc : formatted P coloured (Arg.str ts :: args) = .ok cl)
    (hp : formatted P plain (Arg.str ts :: args) = .ok pl) :
    Console.logTo P s now prio coloured plain fmt args =
      .ok { s with stderr := s.stderr ++ (if s.use_tty ≠ 0 then cl else pl) } := by
  by_cases ht : s.use_tty = 0
  · simp [Console.logTo, hsys, hts, ht, Console.fprintf_stderr, hp]
  · simp [Console.logTo, hsys, hts, ht, Console.fprintf_stderr, hc]

/-- C5. Syslog sub-mode: while `use_syslog` is non-zero, as `USE_SYSLOG(ident)` leaves
it, `LOGI` hands the formatted message alone to `syslog` with priority `LOG_INFO` and
`LOGE` with priority `LOG_ERR`, whatever `use_tty` and the time are; standard error and
every other part of the state stay as they were. -/
theorem syslog_mode_hands_message_only (P : PrintfImpl) (s : Console.State)
    (hsys : s.use_syslog ≠ 0) :
    (∀ (now : Tm) (fmt : List Char) (args : List Arg) (m : Bytes),
      formatted P fmt args = .ok m →
      Console.LOGI P s now fmt args =
        .ok { s with sysmsgs := s.sysmsgs ++ [(Console.LOG_INFO, m)] } ∧
      Console.LOGE P s now fmt args =
        .ok { s with sysmsgs := s.sysmsgs ++ [(Console.LOG_ERR, m)] }) ∧
    (∀ (s0 : Console.State) (ident : String),
      (Console.USE_SYSLOG s0 ident).use_syslog = 1 ∧
      (Console.USE_SYSLOG s0 ident).use_tty = s0.use_tty) := by
  refine ⟨?_, fun s0 ident => ⟨rfl, rfl⟩⟩
  intro now fmt args m hm
  simp [Console.LOGI, Console.LOGE, Console.logTo, hsys, Console.syslog, hm]

/-- Witness of C5: `LOGI("hello %s", "world")` after `USE_SYSLOG("ss-local")`. -/
theorem syslog_mode_hands_message_only_witness :
    sampleSyslog.use_syslog ≠ 0 ∧
      Console.LOGI basicPrintf sampleSyslog sampleNow "hello %s".toList
          [Arg.str "world".toList] =
        .ok { sampleSyslog with sysmsgs := [(6, "hello world".toList)] } :=
  ⟨by decide,
    ((syslog_mode_hands_message_only basicPrintf sampleSyslog (by decide)).1 sampleNow
      "hello %s".toList [Arg.str "world".toList] "hello world".toList rfl).1⟩

theorem esc_mem_specLine (sev : Severity) (ts m : Bytes) (hts : ∀ c ∈ ts, timeChar c)
    (h : '\x1b' ∈ specLine sev ts m) : '\x1b' ∈ m := by
  have hne : '\x1b' ∉ ts := fun hmem => esc_not_timeChar (hts _ hmem)
  cases sev <;> simpa [specLine, hne] using h

theorem esc_mem_colouredLine (sev : Severity) (ts m : Bytes) :
    '\x1b' ∈ colouredLine sev ts m := by
  cases sev <;> simp [colouredLine]

theorem colouredLine_ne_specLine (sev : Severity) (ts m : Bytes) :
    colouredLine sev ts m ≠ specLine sev ts m := by
  cases sev <;> simp [colouredLine, specLine]

theorem Console_flags_kept (P : PrintfImpl) (s s1 : Console.State) (now : Tm) (prio : Nat)
    (coloured plain fmt : List Char) (args : List Arg)
    (h : Console.logTo P s now prio coloured plain fmt args = .ok s1) :
    s1.use_tty = s.use_tty ∧ s1.use_syslog = s.use_syslog := by
  unfold Console.logTo Console.syslog Console.fprintf_stderr at h
  repeat' split at h
  all_goals first
    | (cases h; exact ⟨rfl, rfl⟩)
    | cases h

/-- C6. Default build with syslog off and `use_tty` initially 0, where `USE_TTY()` is
run at configure time exactly when terminal colour is requested: in every later state
that carries the flags so configured, whatever standard error is at that time, the
line `LOGI`/`LOGE` emit is the coloured line if and only if colour was requested and
standard error was a terminal when `USE_TTY()` ran, and is the plain line otherwise;
for a message without ESC bytes the line holds an ESC byte under exactly that
condition; no `LOGI`/`LOGE` call changes `use_tty` or `use_syslog`. -/
theorem colour_is_decided_at_configure_time (P : PrintfImpl) (s0 : Console.State)
    (requested : Bool) (htty0 : s0.use_tty = 0) (hsys0 : s0.use_syslog = 0) :
    (∀ (s : Console.State),
      s.use_tty = (if requested then Console.USE_TTY s0 else s0).use_tty →
      s.use_syslog = (if requested then Console.USE_TTY s0 else s0).use_syslog →
      ∀ (now : Tm) (fmt : List Char) (args : List Arg) (ts m : Bytes),
        strftime 20 Console.TIME_FORMAT now = .ok ts → formatted P fmt args = .ok m →
        ∃ li le, Console.LOGI P s now fmt args = .ok { s with stderr := s.stderr ++ li } ∧
          Console.LOGE P s now fmt args = .ok { s with stderr := s.stderr ++ le } ∧
          (li = colouredLine .info ts m ↔ (requested = true ∧ s0.stderr_tty = true)) ∧
          (li = specLine .info ts m ↔ ¬ (requested = true ∧ s0.stderr_tty = true)) ∧
          (le = colouredLine .error ts m ↔ (requested = true ∧ s0.stderr_tty = true)) ∧
          (le = specLine .error ts m ↔ ¬ (requested = true ∧ s0.stderr_tty = true)) ∧
          ('\x1b' ∉ m →
            ('\x1b' ∈ li ↔ (requested = true ∧ s0.stderr_tty = true)) ∧
            ('\x1b' ∈ le ↔ (requested = true ∧ s0.stderr_tty = true)))) ∧
    (∀ (s s1 : Console.State) (now : Tm) (fmt : List Char) (args : List Arg),
      (Console.LOGI P s now fmt args = .ok s1 ∨ Console.LOGE P s now fmt args = .ok s1) →
      s1.use_tty = s.use_tty ∧ s1.use_syslog = s.use_syslog) := by
  refine ⟨?_, ?_⟩
  · intro s hst hss now fmt args ts m hts hm
    have hsys : s.use_syslog = 0 := by
      rw [hss]; cases requested <;> simp [Console.USE_TTY, hsys0]
    have hI := Console_logTo_stderr P s now Console.LOG_INFO _ _ fmt args ts _ _ hsys hts
      (formatted_LOGI_format_tty P ts m fmt args hm)
      (formatted_Console_LOGI_format P ts m fmt args hm)
    have hE := Console_logTo_stderr P s now Console.LOG_ERR _ _ fmt args ts _ _ hsys hts
      (formatted_LOGE_format_tty P ts m fmt args hm)
      (formatted_Console_LOGE_format P ts m fmt args hm)
    refine ⟨_, _, hI, hE, ?_⟩
    have key : s.use_tty ≠ 0 ↔ (requested = true ∧ s0.stderr_tty = true) := by
      rw [hst]
      cases requested <;> cases hb : s0.stderr_tty <;>
        simp [Console.USE_TTY, Console.isatty_stderr, htty0, hb]
    have n1 := colouredLine_ne_specLine .info ts m
    have n2 := colouredLine_ne_specLine .error ts m
    have hchars : ∀ c ∈ ts, timeChar c :=
      strftime_timeChar 20 now ts (by rw [← strftime_formats_agree]; exact hts)
    by_cases hk : s.use_tty ≠ 0
    · have hk2 := key.mp hk
      simp only [if_pos hk]
      exact ⟨⟨fun _ => hk2, fun _ => trivial⟩, ⟨fun h => absurd h n1, fun h => absurd hk2 h⟩,
        ⟨fun _ => hk2, fun _ => trivial⟩, ⟨fun h => absurd h n2, fun h => absurd hk2 h⟩,
        fun _ => ⟨⟨fun _ => hk2, fun _ => esc_mem_colouredLine .info ts m⟩,
          ⟨fun _ => hk2, fun _ => esc_mem_colouredLine .error ts m⟩⟩⟩
    · have hk2 : ¬ (requested = true ∧ s0.stderr_tty = true) := fun h => hk (key.mpr h)
      simp only [if_neg hk]
      exact ⟨⟨fun h => absurd h.symm n1, fun h => absurd h hk2⟩, ⟨fun _ => hk2, fun _ => trivial⟩,
        ⟨fun h => absurd h.symm n2, fun h => absurd h hk2⟩, ⟨fun _ => hk2, fun _ => trivial⟩,
        fun hm0 =>
          ⟨⟨fun h => absurd (esc_mem_specLine .info ts m hchars h) hm0, fun h => absurd h hk2⟩,
            ⟨fun h => absurd (esc_mem_specLine .error ts m hchars h) hm0,
              fun h => absurd h hk2⟩⟩⟩
  · intro s s1 now fmt args h
    rcases h with h | h
    · exact Console_flags_kept P s s1 now _ _ _ fmt args h
    · exact Console_flags_kept P s s1 now _ _ _ fmt args h

/-- Witness of C6: colour requested on a terminal, which standard error no longer is
when `LOGI("hi")` runs. -/
theorem colour_is_decided_at_configure_time_witness :
    samplePlain.use_tty = 0 ∧ samplePlain.use_syslog = 0 ∧
      ∃ li, Console.LOGI basicPrintf { sampleTty with stderr_tty := false } sampleNow
            "hi".toList [] =
          .ok { sampleTty with stderr_tty := false, stderr := [] ++ li } ∧
        li = colouredLine .info "2024-01-02 03:04:05".toList "hi".toList := by
  refine ⟨rfl, rfl, ?_⟩
  obtain ⟨li, _, hI, _, h1, _⟩ :=
    (colour_is_decided_at_configure_time basicPrintf samplePlain true rfl rfl).1
      { sampleTty with stderr_tty := false } rfl rfl sampleNow "hi".toList []
      "2024-01-02 03:04:05".toList "hi".toList rfl rfl
  exact ⟨li, hI, h1.mpr ⟨rfl, rfl⟩⟩

/-- C7. Default build with `use_syslog = 0` and `use_tty = 0`: `LOGI` writes exactly
`" " ++ ts ++ " INFO: " ++ m ++ "\n"` to standard error and `LOGE` exactly
`" " ++ ts ++ " ERROR: " ++ m ++ "\n"`; these are the bytes the File backend appends
for the same time, format and arguments, the two `TIME_FORMAT` strings giving the same
timestamp; and such a line holds an ESC byte only if the message does. -/
theorem plain_terminal_line_is_file_line (P : PrintfImpl) (s : Console.State)
    (f : LibOnly.State) (h : Nat) (path : String) (old : Bytes) (now : Tm)
    (fmt : List Char) (args : List Arg) (ts m : Bytes)
    (hsys : s.use_syslog = 0) (htty : s.use_tty = 0) (hf : LibOnly.LogOpen f h path old)
    (hts : strftime 20 Console.TIME_FORMAT now = .ok ts)
    (hm : formatted P fmt args = .ok m) :
    strftime 20 LibOnly.TIME_FORMAT now = .ok ts ∧
    Console.LOGI P s now fmt args =
      .ok { s with stderr := s.stderr ++
        (" ".toList ++ ts ++ " INFO: ".toList ++ m ++ "\n".toList) } ∧
    Console.LOGE P s now fmt args =
      .ok { s with stderr := s.stderr ++
        (" ".toList ++ ts ++ " ERROR: ".toList ++ m ++ "\n".toList) } ∧
    (∃ f1, LibOnly.LOGI P f now fmt args = .ok f1 ∧
      LibOnly.LogOpen f1 h path
        (old ++ (" ".toList ++ ts ++ " INFO: ".toList ++ m ++ "\n".toList))) ∧
    (∃ f1, LibOnly.LOGE P f now fmt args = .ok f1 ∧
      LibOnly.LogOpen f1 h path
        (old ++ (" ".toList ++ ts ++ " ERROR: ".toList ++ m ++ "\n".toList))) ∧
    ('\x1b' ∈ " ".toList ++ ts ++ " INFO: ".toList ++ m ++ "\n".toList → '\x1b' ∈ m) ∧
    ('\x1b' ∈ " ".toList ++ ts ++ " ERROR: ".toList ++ m ++ "\n".toList → '\x1b' ∈ m) := by
  have hts2 : strftime 20 LibOnly.TIME_FORMAT now = .ok ts := by
    rw [← strftime_formats_agree]; exact hts
  have hI := Console_logTo_stderr P s now Console.LOG_INFO _ _ fmt args ts _ _ hsys hts
    (formatted_LOGI_format_tty P ts m fmt args hm)
    (formatted_Console_LOGI_format P ts m fmt args hm)
  have hE := Console_logTo_stderr P s now Console.LOG_ERR _ _ fmt args ts _ _ hsys hts
    (formatted_LOGE_format_tty P ts m fmt args hm)
    (formatted_Console_LOGE_format P ts m fmt args hm)
  have h0 : ¬ s.use_tty ≠ 0 := by simp [htty]
  rw [if_neg h0] at hI hE
  have hchars := strftime_timeChar 20 now ts hts2
  exact ⟨hts2, hI, hE,
    logTo_LogOpen P f h path old now _ args ts _ hf hts2
      (formatted_LOGI_format P ts m fmt args hm),
    logTo_LogOpen P f h path old now _ args ts _ hf hts2
      (formatted_LOGE_format P ts m fmt args hm),
    esc_mem_specLine .info ts m hchars, esc_mem_specLine .error ts m hchars⟩

/-- Witness of C7: `LOGI("hello %s", "world")` on a plain standard error and on the
freshly opened `x.log`. -/
theorem plain_terminal_line_is_file_line_witness :
    samplePlain.use_syslog = 0 ∧ samplePlain.use_tty = 0 ∧
      LibOnly.LogOpen sampleOpen 0 "x.log" [] ∧
      Console.LOGI basicPrintf samplePlain sampleNow "hello %s".toList
          [Arg.str "world".toList] =
        .ok { samplePlain with stderr := " 2024-01-02 03:04:05 INFO: hello world\n".toList } ∧
      ∃ f1, LibOnly.LOGI basicPrintf sampleOpen sampleNow "hello %s".toList
            [Arg.str "world".toList] = .ok f1 ∧
          LibOnly.LogOpen f1 0 "x.log" " 2024-01-02 03:04:05 INFO: hello world\n".toList :=
  have h := plain_terminal_line_is_file_line basicPrintf samplePlain sampleOpen 0 "x.log" []
    sampleNow "hello %s".toList [Arg.str "world".toList] "2024-01-02 03:04:05".toList
    "hello world".toList rfl rfl sampleOpen_LogOpen rfl rfl
  ⟨rfl, rfl, sampleOpen_LogOpen, h.2.1, h.2.2.2.1⟩

/-- C8, as stated, fails: for `LOGI("hi")` on a terminal the colour sequence is not
placed directly around the label `INFO:`; it opens before the timestamp. -/
theorem terminal_colour_is_not_around_label_only :
    ∃ s1, Console.LOGI basicPrintf sampleTty sampleNow "hi".toList [] = .ok s1 ∧
      s1.stderr = "\x1b[01;32m 2024-01-02 03:04:05 INFO: \x1b[0mhi\n".toList ∧
      s1.stderr ≠ labelWrappedLine .info "2024-01-02 03:04:05".toList "hi".toList :=
  ⟨_, rfl, rfl, by decide⟩

/-- C8, amended. Default build with `use_syslog = 0` and `use_tty` non-zero: `LOGI`
writes the green sequence `ESC[01;32m`, the prefix `" " ++ ts ++ " INFO: "` (timestamp
and label), the reset sequence `ESC[0m`, the message and a newline; `LOGE` writes the
same with the magenta sequence `ESC[01;35m` and the label `ERROR:`.  The message lies
after the reset sequence. -/
theorem terminal_colour_spans_timestamp_and_label (P : PrintfImpl) (s : Console.State) (now : Tm)
    (fmt : List Char) (args : List Arg) (ts m : Bytes)
    (hsys : s.use_syslog = 0) (htty : s.use_tty ≠ 0)
    (hts : strftime 20 Console.TIME_FORMAT now = .ok ts)
    (hm : formatted P fmt args = .ok m) :
    Console.LOGI P s now fmt args =
      .ok { s with stderr := s.stderr ++
        ("\x1b[01;32m".toList ++ (" ".toList ++ ts ++ " INFO: ".toList) ++ "\x1b[0m".toList ++
          m ++ "\n".toList) } ∧
    Console.LOGE P s now fmt args =
      .ok { s with stderr := s.stderr ++
        ("\x1b[01;35m".toList ++ (" ".toList ++ ts ++ " ERROR: ".toList) ++ "\x1b[0m".toList ++
          m ++ "\n".toList) } := by
  have hI := Console_logTo_stderr P s now Console.LOG_INFO _ _ fmt args ts _ _ hsys hts
    (formatted_LOGI_format_tty P ts m fmt args hm)
    (formatted_Console_LOGI_format P ts m fmt args hm)
  have hE := Console_logTo_stderr P s now Console.LOG_ERR _ _ fmt args ts _ _ hsys hts
    (formatted_LOGE_format_tty P ts m fmt args hm)
    (formatted_Console_LOGE_format P ts m fmt args hm)
  rw [if_pos htty] at hI hE
  constructor
  · have h : Console.LOGI P s now fmt args = _ := hI
    simpa [colouredLine] using h
  · have h : Console.LOGE P s now fmt args = _ := hE
    simpa [colouredLine] using h

/-- Witness of C8 amended: `LOGE("code %d", 7)` after `USE_TTY()` on a terminal. -/
theorem terminal_colour_spans_timestamp_and_label_witness :
    sampleTty.use_syslog = 0 ∧ sampleTty.use_tty ≠ 0 ∧
      Console.LOGE basicPrintf sampleTty sampleNow "code %d".toList [Arg.int 7] =
        .ok { sampleTty with
              stderr := "\x1b[01;35m 2024-01-02 03:04:05 ERROR: \x1b[0mcode 7\n".toList } :=
  ⟨rfl, by decide,
    (terminal_colour_spans_timestamp_and_label basicPrintf sampleTty sampleNow "code %d".toList [Arg.int 7]
      "2024-01-02 03:04:05".toList "code 7".toList rfl (by decide) rfl rfl).2⟩

/-! ## Templates and arguments -/

/-- C9. Every format string the macros build (File backend and terminal sub-mode,
plain or coloured): when the caller's format `fmt` with its `N` arguments `args`
formats to `m` using up all `N` arguments, the macro's format string, which is a
prefix holding the `%s` of the timestamp, then `fmt`, then a newline, formats against
`ts :: args` to the prefix with `ts` in place of `%s`, then `m`, then the newline, and
uses up all `N + 1` arguments. -/
theorem timestamp_and_arguments_fill_template (P : PrintfImpl) (ts : Bytes)
    (fmt : List Char) (args : List Arg) (m : Bytes)
    (hfmt : format P fmt args = .ok (m, [])) :
    format P (LibOnly.LOGI_format fmt) (Arg.str ts :: args) =
      .ok (" ".toList ++ ts ++ " INFO: ".toList ++ m ++ "\n".toList, []) ∧
    format P (LibOnly.LOGE_format fmt) (Arg.str ts :: args) =
      .ok (" ".toList ++ ts ++ " ERROR: ".toList ++ m ++ "\n".toList, []) ∧
    format P (Console.LOGI_format fmt) (Arg.str ts :: args) =
      .ok (" ".toList ++ ts ++ " INFO: ".toList ++ m ++ "\n".toList, []) ∧
    format P (Console.LOGE_format fmt) (Arg.str ts :: args) =
      .ok (" ".toList ++ ts ++ " ERROR: ".toList ++ m ++ "\n".toList, []) ∧
    format P (Console.LOGI_format_tty fmt) (Arg.str ts :: args) =
      .ok ("\x1b[01;32m ".toList ++ ts ++ " INFO: \x1b[0m".toList ++ m ++ "\n".toList, []) ∧
    format P (Console.LOGE_format_tty fmt) (Arg.str ts :: args) =
      .ok ("\x1b[01;35m ".toList ++ ts ++ " ERROR: \x1b[0m".toList ++ m ++ "\n".toList, []) := by
  have a := format_template P " ".toList " INFO: ".toList (by decide) (by decide) ts fmt args
  have b := format_template P " ".toList " ERROR: ".toList (by decide) (by decide) ts fmt args
  have c := format_template P "\x1b[01;32m ".toList " INFO: \x1b[0m".toList (by decide)
    (by decide) ts fmt args
  have d := format_template P "\x1b[01;35m ".toList " ERROR: \x1b[0m".toList (by decide)
    (by decide) ts fmt args
  rw [hfmt] at a b c d
  refine ⟨?_, ?_, ?_, ?_, ?_, ?_⟩
  · simpa [LibOnly.LOGI_format] using a
  · simpa [LibOnly.LOGE_format] using b
  · simpa [Console.LOGI_format] using a
  · simpa [Console.LOGE_format] using b
  · simpa [Console.LOGI_format_tty] using c
  · simpa [Console.LOGE_format_tty] using d

/-- Witness of C9: the format `"%s:%d"` with its two arguments. -/
theorem timestamp_and_arguments_fill_template_witness :
    format basicPrintf "%s:%d".toList [Arg.str "host".toList, Arg.int 8388] =
        .ok ("host:8388".toList, []) ∧
      format basicPrintf (Console.LOGE_format_tty "%s:%d".toList)
          [Arg.str "2024-01-02 03:04:05".toList, Arg.str "host".toList, Arg.int 8388] =
        .ok ("\x1b[01;35m 2024-01-02 03:04:05 ERROR: \x1b[0mhost:8388\n".toList, []) :=
  ⟨rfl,
    (timestamp_and_arguments_fill_template basicPrintf "2024-01-02 03:04:05".toList
      "%s:%d".toList [Arg.str "host".toList, Arg.int 8388] "host:8388".toList rfl).2.2.2.2.2⟩

/-! ## `ss_free` -/

/-- C10. `ss_free(ptr)` on a variable that holds the address `a` of a live block:
the block is released exactly once (`a` is added once to the blocks released and is
no longer live; no other block is touched), the variable `ptr` is `NULL` afterwards
and no other variable changes; `ss_free(ptr)` again releases nothing: it leaves the
memory as it is. -/
theorem ss_free_releases_once_and_nulls (mem : Mem) (ptr : String) (a : Nat)
    (hptr : mem.vars ptr = some a) (hlive : a ∈ mem.live) :
    ∃ m1, ss_free mem ptr = .ok m1 ∧ m1.vars ptr = none ∧
      m1.freed = mem.freed ++ [a] ∧ a ∉ m1.live ∧
      (∀ b, b ≠ a → (b ∈ m1.live ↔ b ∈ mem.live)) ∧
      (∀ q, q ≠ ptr → m1.vars q = mem.vars q) ∧
      ss_free m1 ptr = .ok m1 := by
  refine ⟨{ vars := Function.update mem.vars ptr none
            live := mem.live.filter (fun b => b ≠ a)
            freed := mem.freed ++ [a] }, ?_, ?_, rfl, ?_, ?_, ?_, ?_⟩
  · simp [ss_free, free, hptr, hlive]
  · simp
  · simp
  · intro b hb
    simp [hb]
  · intro q hq
    simp [Function.update, hq]
  · simp [ss_free, free]

/-- Witness of C10: `ss_free(buf)` where `buf` holds the live block 16. -/
theorem ss_free_releases_once_and_nulls_witness :
    sampleMem.vars "buf" = some 16 ∧ 16 ∈ sampleMem.live ∧
      ∃ m1, ss_free sampleMem "buf" = .ok m1 ∧ m1.vars "buf" = none ∧
        m1.freed = [16] ∧ m1.vars "other" = some 32 ∧ ss_free m1 "buf" = .ok m1 :=
  have h := ss_free_releases_once_and_nulls sampleMem "buf" 16 rfl (by decide)
  ⟨rfl, by decide,
    h.imp fun _ g => ⟨g.1, g.2.1, g.2.2.1, (g.2.2.2.2.2.1 "other" (by decide)).trans rfl,
      g.2.2.2.2.2.2⟩⟩

end Utils
